import Mathlib

/-!
Verification development for the parameter-type classification pipeline
(`param_type_pipeline.py`).  Python dictionaries are modelled as ordered
association lists (insertion order preserved, first occurrence wins on
lookup, as for dictionaries built by `json.load`), Python floats as exact
rationals, and machine-learning library calls as explicit hypotheses or
faithful models of their documented behaviour where noted.
-/

/-! ## String helpers (models of the Python regex/string operations used) -/

/-- Does `pat` occur as an initial segment of `s` (character lists)?  Models
an anchored `^pat` regex search. -/
def charsStart : List Char → List Char → Bool
  | [], _ => true
  | _ :: _, [] => false
  | p :: ps, c :: cs => p = c && charsStart ps cs

/-- `s.startswith(pat)` on strings. -/
def strStarts (s pat : String) : Bool := charsStart pat.data s.data

/-- `s.endswith(pat)` on strings, i.e. a `pat$` regex search. -/
def strEnds (s pat : String) : Bool := charsStart pat.data.reverse s.data.reverse

/-- Does `needle` occur as a contiguous segment of `hay`?  Models an
unanchored regex search for a literal. -/
def charsHas (needle : List Char) : List Char → Bool
  | [] => charsStart needle []
  | c :: cs => charsStart needle (c :: cs) || charsHas needle cs

/-- `needle in hay` substring test on strings. -/
def strHas (s pat : String) : Bool := charsHas pat.data s.data

/-- Python `str.strip()`: remove whitespace from both ends. -/
def pyStrip (s : String) : String :=
  ⟨((s.data.dropWhile Char.isWhitespace).reverse.dropWhile Char.isWhitespace).reverse⟩

/-- `str.lower()` (character-wise, ASCII case folding). -/
def strLower (s : String) : String := ⟨s.data.map Char.toLower⟩

/-- Is the string empty? -/
def strEmpty (s : String) : Bool := s.data.isEmpty

/-- All characters are ASCII decimal digits (`\d+` over the values the
pipeline handles). -/
def allDigits (l : List Char) : Bool := l.all Char.isDigit

/-- `re.fullmatch(r'-?\d+', v)`: optional leading minus then one or more
digits. -/
def isIntLit (s : String) : Bool :=
  match s.data with
  | [] => false
  | '-' :: rest => !rest.isEmpty && allDigits rest
  | l => allDigits l

/-- One or more digits, a dot, then one or more digits (`\d+\.\d+`). -/
def digitsDotDigits (l : List Char) : Bool :=
  let d1 := l.takeWhile Char.isDigit
  let rest := l.dropWhile Char.isDigit
  !d1.isEmpty &&
    (match rest with
     | '.' :: r2 => !r2.isEmpty && allDigits r2
     | _ => false)

/-- `re.fullmatch(r'-?\d+\.\d+', v)`. -/
def isFloatLit (s : String) : Bool :=
  match s.data with
  | '-' :: rest => digitsDotDigits rest
  | l => digitsDotDigits l

/-- Hexadecimal digit (`[0-9a-fA-F]`). -/
def isHexChar (c : Char) : Bool :=
  c.isDigit || ('a' ≤ c && c ≤ 'f') || ('A' ≤ c && c ≤ 'F')

/-- Split a character list at every `'-'`. -/
def splitDash : List Char → List (List Char)
  | [] => [[]]
  | '-' :: rest => [] :: splitDash rest
  | c :: rest =>
    match splitDash rest with
    | g :: gs => (c :: g) :: gs
    | [] => [[c]]

/-- `UUID_RE`: canonical 8-4-4-4-12 hexadecimal UUID format. -/
def isUuid (s : String) : Bool :=
  match splitDash s.data with
  | [a, b, c, d, e] =>
    a.length == 8 && b.length == 4 && c.length == 4 && d.length == 4 &&
      e.length == 12 && (a ++ b ++ c ++ d ++ e).all isHexChar
  | _ => false

/-! ## JSON value model -/

/-- JSON values as produced by `json.load`; objects are ordered association
lists (Python dictionaries preserve insertion order and `json.load` keeps
the last duplicate, but real inputs have unique keys). -/
inductive Json where
  | null
  | bool (b : Bool)
  | num (q : ℚ)
  | str (s : String)
  | arr (items : List Json)
  | obj (fields : List (String × Json))

/-- First-occurrence lookup in an object's field list (`d[k]` / `k in d`). -/
def jGet : List (String × Json) → String → Option Json
  | [], _ => none
  | (k, v) :: rest, key => if k = key then some v else jGet rest key

/-- Python `dict.get(k)`: `None` both for a missing key and for a JSON
`null` value (`json.load` maps `null` to `None`). -/
def pyGet (fields : List (String × Json)) (key : String) : Option Json :=
  match jGet fields key with
  | some .null => none
  | r => r

/-- Python truthiness of a JSON value. -/
def jTruthy : Json → Bool
  | .null => false
  | .bool b => b
  | .num q => q != 0
  | .str s => !s.isEmpty
  | .arr l => !l.isEmpty
  | .obj l => !l.isEmpty

/-- A chain `a or b or ... or dflt` of Python `or`-defaulting over
`dict.get` results. -/
def pyOrD : List (Option Json) → Json → Json
  | [], d => d
  | c :: rest, d =>
    match c with
    | some v => if jTruthy v then v else pyOrD rest d
    | none => pyOrD rest d

/-- `d[k] = v` on an ordered dictionary: replace the first occurrence in
place, or append at the end when the key is new. -/
def dset : List (String × Json) → String → Json → List (String × Json)
  | [], k, v => [(k, v)]
  | (k', v') :: rest, k, v =>
    if k' = k then (k', v) :: rest else (k', v') :: dset rest k v

/-! ## Heuristic bootstrap labeler (`heuristic_label`, lines 46-70) -/

/-- `re.search(r'id$|_id$|^id$|count|num|size|page|limit', name, re.I)`:
the name ends with `id`, or contains `count`, `num`, `size`, `page` or
`limit` (case-insensitively). -/
def nameIntHint (name : String) : Bool :=
  let n := strLower name
  strEnds n "id" || strHas n "count" || strHas n "num" || strHas n "size" ||
    strHas n "page" || strHas n "limit"

/-- `re.search(r'^(is|has|enable|flag)|_flag$', name, re.I)`: the name
starts with `is`, `has`, `enable` or `flag`, or ends with `_flag`
(case-insensitively). -/
def flagNameHint (name : String) : Bool :=
  let n := strLower name
  strStarts n "is" || strStarts n "has" || strStarts n "enable" ||
    strStarts n "flag" || strEnds n "_flag"

/-- `heuristic_label(name, value, options)`.  `value` is the Python
`str(value)` rendering of the observed value, `none` when the value is
`None`; `options` is the parameter's `options` list, `none` when absent or
`null`. -/
def heuristic_label (name : String) (value : Option String)
    (options : Option (List Json)) : String :=
  if (match options with | some l => !l.isEmpty | none => false) then "enum"
  else
    match value with
    | none => if !strEmpty name && nameIntHint name then "int" else "string"
    | some s =>
      let v := pyStrip s
      if strEmpty v then
        if !strEmpty name && nameIntHint name then "int" else "string"
      else if strLower v == "true" || strLower v == "false" then "bool"
      else if (v == "0" || v == "1") && (!strEmpty name && flagNameHint name) then
        "bool"
      else if isIntLit v then "int"
      else if isFloatLit v then "float"
      else if isUuid v then "uuid"
      else if strHas v "@" && strHas v "." then "email"
      else "string"

/-! ## Ordered-dictionary lemmas -/

theorem jGet_dset_self (f : List (String × Json)) (k : String) (v : Json) :
    jGet (dset f k v) k = some v := by
  induction f with
  | nil => simp [dset, jGet]
  | cons kv rest ih =>
    obtain ⟨k', v'⟩ := kv
    by_cases h : k' = k
    · simp [dset, h, jGet]
    · simp [dset, h, jGet, ih]

theorem jGet_dset_ne (f : List (String × Json)) {k k' : String} (v : Json)
    (h : k' ≠ k) : jGet (dset f k' v) k = jGet f k := by
  induction f with
  | nil => simp [dset, jGet, h]
  | cons kv rest ih =>
    obtain ⟨k₀, v₀⟩ := kv
    by_cases h0 : k₀ = k'
    · subst h0
      simp [dset, jGet, h]
    · simp [dset, h0, jGet, ih]

theorem pyGet_dset_ne (f : List (String × Json)) {k k' : String} (v : Json)
    (h : k' ≠ k) : pyGet (dset f k' v) k = pyGet f k := by
  unfold pyGet
  rw [jGet_dset_ne f v h]

theorem dset_same {f : List (String × Json)} {k : String} {v : Json}
    (h : jGet f k = some v) : dset f k v = f := by
  induction f with
  | nil => simp [jGet] at h
  | cons kv rest ih =>
    obtain ⟨k₀, v₀⟩ := kv
    by_cases h0 : k₀ = k
    · subst h0
      simp [jGet] at h
      simp [dset, h]
    · simp [jGet, h0] at h
      simp [dset, h0, ih h]

theorem listSet_same {α : Type} : ∀ {l : List α} {n : Nat} {a : α},
    l.get? n = some a → l.set n a = l
  | [], n, a, h => by simp at h
  | x :: xs, 0, a, h => by
    rw [List.get?_cons_zero] at h
    cases h
    rfl
  | x :: xs, n + 1, a, h => by
    rw [List.get?_cons_succ] at h
    show x :: xs.set n a = x :: xs
    rw [listSet_same h]

/-! ## Positional access and update of one parameter
(`enriched[t_idx]["params"][p_idx]`, used by `write_output_templates` and
`retrain_with_manual_labels`; any failing access raises and the record is
skipped) -/

/-- The fields of a JSON object, when the value is an object. -/
def Json.objFields : Json → Option (List (String × Json))
  | .obj f => some f
  | _ => none

/-- The items of a JSON array, when the value is an array. -/
def Json.arrItems : Json → Option (List Json)
  | .arr l => some l
  | _ => none

/-- Drill down to template `i`, its `params` array and parameter `j`:
`(template fields, params items, parameter fields)`.  `none` models any
raised `IndexError`/`KeyError`/`TypeError` on the way. -/
def tParts (ts : List Json) (i j : Nat) :
    Option (List (String × Json) × List Json × List (String × Json)) :=
  match ts.get? i with
  | some (.obj tf) =>
    match jGet tf "params" with
    | some (.arr ps) =>
      match ps.get? j with
      | some (.obj q) => some (tf, ps, q)
      | _ => none
    | _ => none
  | _ => none

/-- The fields of parameter `j` of template `i`, when addressable. -/
def paramAt (ts : List Json) (i j : Nat) : Option (List (String × Json)) :=
  (tParts ts i j).map (fun x => x.2.2)

/-- Replace the fields of parameter `j` of template `i` by `f` applied to
them; identity when the position is not addressable (the `except` path). -/
def updateParamAt (ts : List Json) (i j : Nat)
    (f : List (String × Json) → List (String × Json)) : List Json :=
  match tParts ts i j with
  | some (tf, ps, q) =>
    ts.set i (.obj (dset tf "params" (.arr (ps.set j (.obj (f q))))))
  | none => ts

theorem get?_some_lt {α : Type} {l : List α} {n : Nat} {a : α}
    (h : l.get? n = some a) : n < l.length := by
  by_contra hn
  push_neg at hn
  rw [List.get?_eq_none.mpr hn] at h
  cases h

theorem tParts_eq_some_iff {ts : List Json} {i j : Nat}
    {tf : List (String × Json)} {ps : List Json} {q : List (String × Json)} :
    tParts ts i j = some (tf, ps, q) ↔
      ts.get? i = some (.obj tf) ∧ jGet tf "params" = some (.arr ps) ∧
        ps.get? j = some (.obj q) := by
  unfold tParts
  constructor
  · intro h
    split at h
    · rename_i tf0 hts
      split at h
      · rename_i ps0 hp
        split at h
        · rename_i q0 hq
          obtain ⟨rfl, rfl, rfl⟩ := Prod.mk.injEq .. ▸ Option.some.inj h
          exact ⟨hts, hp, hq⟩
        · exact absurd h (by simp)
      · exact absurd h (by simp)
    · exact absurd h (by simp)
  · rintro ⟨h1, h2, h3⟩
    simp only [h1, h2, h3]

theorem updateParamAt_of_none {ts : List Json} {i j : Nat}
    {f : List (String × Json) → List (String × Json)}
    (h : tParts ts i j = none) : updateParamAt ts i j f = ts := by
  unfold updateParamAt
  simp only [h]

theorem updateParamAt_eq_set {ts : List Json} {i j : Nat}
    {f : List (String × Json) → List (String × Json)}
    {tf : List (String × Json)} {ps : List Json} {q : List (String × Json)}
    (h : tParts ts i j = some (tf, ps, q)) :
    updateParamAt ts i j f =
      ts.set i (.obj (dset tf "params" (.arr (ps.set j (.obj (f q)))))) := by
  unfold updateParamAt
  simp only [h]

theorem updateParamAt_length (ts : List Json) (i j : Nat)
    (f : List (String × Json) → List (String × Json)) :
    (updateParamAt ts i j f).length = ts.length := by
  cases h : tParts ts i j with
  | none => rw [updateParamAt_of_none h]
  | some x =>
    obtain ⟨tf, ps, q⟩ := x
    rw [updateParamAt_eq_set h, List.length_set]

theorem paramAt_updateParamAt_ne {ts : List Json} {i j i' j' : Nat}
    {f : List (String × Json) → List (String × Json)}
    (hne : ¬(i' = i ∧ j' = j)) :
    paramAt (updateParamAt ts i j f) i' j' = paramAt ts i' j' := by
  cases h : tParts ts i j with
  | none => rw [updateParamAt_of_none h]
  | some x =>
    obtain ⟨tf, ps, q⟩ := x
    rw [updateParamAt_eq_set h]
    obtain ⟨hts, hp, hq⟩ := tParts_eq_some_iff.mp h
    by_cases hi : i' = i
    · subst hi
      have hj : j' ≠ j := fun hj => hne ⟨rfl, hj⟩
      have hlt : i' < ts.length := get?_some_lt hts
      simp only [paramAt, tParts, List.get?_set_eq_of_lt _ hlt, hts,
        jGet_dset_self, List.get?_set_ne _ _ (Ne.symm hj), hp]
      cases hpj : ps.get? j' with
      | none => rfl
      | some p => cases p <;> rfl
    · unfold paramAt tParts
      rw [List.get?_set_ne _ _ (Ne.symm hi)]

theorem paramAt_updateParamAt_self {ts : List Json} {i j : Nat}
    {f : List (String × Json) → List (String × Json)}
    {tf : List (String × Json)} {ps : List Json} {q : List (String × Json)}
    (h : tParts ts i j = some (tf, ps, q)) :
    paramAt (updateParamAt ts i j f) i j = some (f q) := by
  obtain ⟨hts, hp, hq⟩ := tParts_eq_some_iff.mp h
  have hlt : i < ts.length := get?_some_lt hts
  have hjlt : j < ps.length := get?_some_lt hq
  rw [updateParamAt_eq_set h]
  simp only [paramAt, tParts, List.get?_set_eq_of_lt _ hlt, jGet_dset_self,
    List.get?_set_eq_of_lt _ hjlt]
  rfl

theorem updateParamAt_fix {ts : List Json} {i j : Nat}
    {f : List (String × Json) → List (String × Json)}
    {tf : List (String × Json)} {ps : List Json} {q : List (String × Json)}
    (h : tParts ts i j = some (tf, ps, q)) (hfq : f q = q) :
    updateParamAt ts i j f = ts := by
  obtain ⟨hts, hp, hq⟩ := tParts_eq_some_iff.mp h
  rw [updateParamAt_eq_set h, hfq, listSet_same hq, dset_same hp,
    listSet_same hts]

theorem tParts_eq_none_of_paramAt {ts : List Json} {i j : Nat}
    (h : paramAt ts i j = none) : tParts ts i j = none := by
  unfold paramAt at h
  cases ht : tParts ts i j with
  | none => rfl
  | some x =>
    rw [ht] at h
    cases h

theorem tParts_of_paramAt_some {ts : List Json} {i j : Nat}
    {q : List (String × Json)} (h : paramAt ts i j = some q) :
    ∃ tf ps, tParts ts i j = some (tf, ps, q) := by
  unfold paramAt at h
  cases ht : tParts ts i j with
  | none =>
    rw [ht] at h
    cases h
  | some x =>
    obtain ⟨tf, ps, q0⟩ := x
    rw [ht] at h
    simp only [Option.map_some'] at h
    cases h
    exact ⟨tf, ps, rfl⟩

/-! ## Prediction records and the Merger
(`write_output_templates`, lines 400-429, and
`produce_benign_value_for_param`, lines 261-275).  Template and parameter
indices are the non-negative `enumerate` positions produced by
`predict_params_for_templates`, hence naturals. -/

/-- One prediction as consumed by the Merger: `template_index`,
`param_index`, `predicted` label and `confidence`. -/
structure PredRec where
  template_index : Nat
  param_index : Nat
  predicted : String
  confidence : ℚ

/-- `param_entry.get("options") or param_entry.get("opts") or None`. -/
def optsOf (fields : List (String × Json)) : Json :=
  pyOrD [pyGet fields "options", pyGet fields "opts"] .null

/-- `produce_benign_value_for_param`: `BASELINE_MAP` lookup; for `enum`,
the first entry of the parameter's options when it is a non-empty list,
else `"option1"`; unknown labels default to `"test"`. -/
def produceBenign (fields : List (String × Json)) (pt : String) : Json :=
  if pt = "enum" then
    match optsOf fields with
    | .arr (x :: _) => x
    | _ => .str "option1"
  else if pt = "int" then .str "1"
  else if pt = "float" then .str "1.23"
  else if pt = "bool" then .str "true"
  else if pt = "uuid" then .str "00000000-0000-0000-0000-000000000000"
  else if pt = "email" then .str "test@example.com"
  else if pt = "string" then .str "test"
  else .str "test"

/-- The three assignments of the Merger on one addressed parameter:
`predicted_type`, then `predicted_confidence`, then `baseline_value`
computed from the already partially updated parameter object. -/
def enrichParam (q : List (String × Json)) (p : PredRec) : List (String × Json) :=
  let q1 := dset q "predicted_type" (.str p.predicted)
  let q2 := dset q1 "predicted_confidence" (.num p.confidence)
  dset q2 "baseline_value" (produceBenign q2 p.predicted)

/-- One iteration of the Merger's loop; a failing access skips the record
(`except Exception: continue`). -/
def mergeOne (ts : List Json) (p : PredRec) : List Json :=
  updateParamAt ts p.template_index p.param_index (fun q => enrichParam q p)

/-- The Merger: fold all predictions into (a deep copy of) the templates. -/
def mergePredictions (ts : List Json) (preds : List PredRec) : List Json :=
  preds.foldl mergeOne ts

theorem mergePredictions_cons (ts : List Json) (p : PredRec)
    (rest : List PredRec) :
    mergePredictions ts (p :: rest) = mergePredictions (mergeOne ts p) rest := rfl

theorem enrichParam_def (q : List (String × Json)) (p : PredRec) :
    enrichParam q p =
      dset (dset (dset q "predicted_type" (.str p.predicted))
          "predicted_confidence" (.num p.confidence))
        "baseline_value"
        (produceBenign (dset (dset q "predicted_type" (.str p.predicted))
          "predicted_confidence" (.num p.confidence)) p.predicted) := rfl

theorem optsOf_dset_ne {f : List (String × Json)} {k : String} {v : Json}
    (h1 : k ≠ "options") (h2 : k ≠ "opts") :
    optsOf (dset f k v) = optsOf f := by
  unfold optsOf
  rw [pyGet_dset_ne f v h1, pyGet_dset_ne f v h2]

theorem produceBenign_congr {f f' : List (String × Json)}
    (h : optsOf f = optsOf f') (pt : String) :
    produceBenign f pt = produceBenign f' pt := by
  unfold produceBenign
  rw [h]

theorem optsOf_enrichParam (q : List (String × Json)) (p : PredRec) :
    optsOf (enrichParam q p) = optsOf q := by
  rw [enrichParam_def]
  rw [optsOf_dset_ne (by decide) (by decide),
    optsOf_dset_ne (by decide) (by decide),
    optsOf_dset_ne (by decide) (by decide)]

theorem jGet_enrichParam_predicted_type (q : List (String × Json)) (p : PredRec) :
    jGet (enrichParam q p) "predicted_type" = some (.str p.predicted) := by
  rw [enrichParam_def]
  rw [jGet_dset_ne _ _ (by decide), jGet_dset_ne _ _ (by decide),
    jGet_dset_self]

theorem jGet_enrichParam_predicted_confidence (q : List (String × Json))
    (p : PredRec) :
    jGet (enrichParam q p) "predicted_confidence" = some (.num p.confidence) := by
  rw [enrichParam_def]
  rw [jGet_dset_ne _ _ (by decide), jGet_dset_self]

theorem jGet_enrichParam_baseline (q : List (String × Json)) (p : PredRec) :
    jGet (enrichParam q p) "baseline_value" =
      some (produceBenign (dset (dset q "predicted_type" (.str p.predicted))
        "predicted_confidence" (.num p.confidence)) p.predicted) := by
  rw [enrichParam_def, jGet_dset_self]

theorem enrichParam_idem (q : List (String × Json)) (p : PredRec) :
    enrichParam (enrichParam q p) p = enrichParam q p := by
  have hopts : optsOf (enrichParam q p) =
      optsOf (dset (dset q "predicted_type" (.str p.predicted))
        "predicted_confidence" (.num p.confidence)) := by
    rw [optsOf_enrichParam]
    rw [optsOf_dset_ne (by decide) (by decide),
      optsOf_dset_ne (by decide) (by decide)]
  rw [enrichParam_def (enrichParam q p) p]
  rw [dset_same (jGet_enrichParam_predicted_type q p)]
  rw [dset_same (jGet_enrichParam_predicted_confidence q p)]
  rw [produceBenign_congr hopts]
  exact dset_same (jGet_enrichParam_baseline q p)

/-- The position addressed by a prediction. -/
def PredRec.pos (p : PredRec) : Nat × Nat := (p.template_index, p.param_index)

theorem paramAt_mergeOne_self {ts : List Json} {p : PredRec}
    {tf : List (String × Json)} {ps : List Json} {q : List (String × Json)}
    (h : tParts ts p.template_index p.param_index = some (tf, ps, q)) :
    paramAt (mergeOne ts p) p.template_index p.param_index =
      some (enrichParam q p) :=
  paramAt_updateParamAt_self h

theorem paramAt_mergeOne_ne {ts : List Json} {p : PredRec} {i' j' : Nat}
    (hne : ¬(i' = p.template_index ∧ j' = p.param_index)) :
    paramAt (mergeOne ts p) i' j' = paramAt ts i' j' :=
  paramAt_updateParamAt_ne hne

theorem mergeOne_of_none {ts : List Json} {p : PredRec}
    (h : tParts ts p.template_index p.param_index = none) :
    mergeOne ts p = ts :=
  updateParamAt_of_none h

theorem mergeOne_fix {ts : List Json} {p : PredRec}
    {tf : List (String × Json)} {ps : List Json} {q : List (String × Json)}
    (h : tParts ts p.template_index p.param_index = some (tf, ps, q))
    (hfq : enrichParam q p = q) :
    mergeOne ts p = ts :=
  updateParamAt_fix h hfq

theorem paramAt_mergePredictions_ne {preds : List PredRec} {i j : Nat} :
    ∀ {ts : List Json},
      (∀ p ∈ preds, ¬(i = p.template_index ∧ j = p.param_index)) →
      paramAt (mergePredictions ts preds) i j = paramAt ts i j := by
  induction preds with
  | nil =>
    intro ts _
    rfl
  | cons p rest ih =>
    intro ts h
    rw [mergePredictions_cons]
    rw [ih (fun r hr => h r (List.mem_cons_of_mem _ hr))]
    exact paramAt_mergeOne_ne (h p (List.mem_cons_self _ _))

theorem paramAt_mergePredictions_of_mem {preds : List PredRec}
    (hd : preds.Pairwise (fun a b => a.pos ≠ b.pos)) {p : PredRec}
    (hp : p ∈ preds) :
    ∀ ts : List Json,
      paramAt (mergePredictions ts preds) p.template_index p.param_index =
        (paramAt ts p.template_index p.param_index).map
          (fun q => enrichParam q p) := by
  induction preds with
  | nil => cases hp
  | cons x rest ih =>
    intro ts
    rw [mergePredictions_cons]
    rcases List.mem_cons.mp hp with rfl | hmem
    · have hrest : ∀ r ∈ rest,
          ¬(p.template_index = r.template_index ∧
            p.param_index = r.param_index) := by
        intro r hr hc
        exact (List.pairwise_cons.mp hd).1 r hr (Prod.ext hc.1 hc.2)
      rw [paramAt_mergePredictions_ne hrest]
      cases hts : tParts ts p.template_index p.param_index with
      | none =>
        rw [mergeOne_of_none hts]
        unfold paramAt
        rw [hts]
        rfl
      | some x3 =>
        obtain ⟨tf, ps, q⟩ := x3
        rw [paramAt_mergeOne_self hts]
        unfold paramAt
        rw [hts]
        rfl
    · have hx : ¬(p.template_index = x.template_index ∧
          p.param_index = x.param_index) := by
        intro hc
        exact (List.pairwise_cons.mp hd).1 p hmem
          (Prod.ext hc.1 hc.2).symm
      rw [ih (List.pairwise_cons.mp hd).2 hmem (mergeOne ts x)]
      rw [paramAt_mergeOne_ne hx]

theorem mergePredictions_fix {E : List Json} :
    ∀ {preds : List PredRec}, (∀ p ∈ preds, mergeOne E p = E) →
      mergePredictions E preds = E := by
  intro preds
  induction preds with
  | nil =>
    intro _
    rfl
  | cons p rest ih =>
    intro h
    rw [mergePredictions_cons, h p (List.mem_cons_self _ _)]
    exact ih (fun r hr => h r (List.mem_cons_of_mem _ hr))

/-! ## Manual labels and `retrain_with_manual_labels` (lines 240-257).
The Python code deep-copies the templates (`json.loads(json.dumps(...))`)
and mutates only the copy; in this pure embedding `applyManualLabels`
returns that copy and the caller's list is a distinct, unchanged value by
construction.  Indices come from the coordinator's `enumerate` positions,
hence naturals. -/

/-- One operator-supplied label addressed by template/parameter position. -/
structure ManualLabel where
  template_index : Nat
  param_index : Nat
  label : String

/-- One iteration of the retrain loop:
`templates_copy[t_idx]["params"][p_idx]["type"] = label`, with any raised
exception skipping the record. -/
def applyOneLabel (ts : List Json) (ml : ManualLabel) : List Json :=
  updateParamAt ts ml.template_index ml.param_index
    (fun q => dset q "type" (.str ml.label))

/-- Apply all manual labels, in order, to (the deep copy of) `ts`. -/
def applyManualLabels (ts : List Json) (mls : List ManualLabel) : List Json :=
  mls.foldl applyOneLabel ts

theorem applyManualLabels_cons (ts : List Json) (ml : ManualLabel)
    (rest : List ManualLabel) :
    applyManualLabels ts (ml :: rest) =
      applyManualLabels (applyOneLabel ts ml) rest := rfl

theorem applyOneLabel_of_none {ts : List Json} {ml : ManualLabel}
    (h : tParts ts ml.template_index ml.param_index = none) :
    applyOneLabel ts ml = ts :=
  updateParamAt_of_none h

theorem paramAt_applyOneLabel_self {ts : List Json} {ml : ManualLabel}
    {tf : List (String × Json)} {ps : List Json} {q : List (String × Json)}
    (h : tParts ts ml.template_index ml.param_index = some (tf, ps, q)) :
    paramAt (applyOneLabel ts ml) ml.template_index ml.param_index =
      some (dset q "type" (.str ml.label)) :=
  paramAt_updateParamAt_self h

theorem paramAt_applyOneLabel_ne {ts : List Json} {ml : ManualLabel}
    {i' j' : Nat}
    (hne : ¬(i' = ml.template_index ∧ j' = ml.param_index)) :
    paramAt (applyOneLabel ts ml) i' j' = paramAt ts i' j' :=
  paramAt_updateParamAt_ne hne

theorem jGet_applyOneLabel_other {ts : List Json} {ml : ManualLabel}
    {i j : Nat} {k : String} (hk : k ≠ "type") :
    (paramAt (applyOneLabel ts ml) i j).map (fun q => jGet q k) =
      (paramAt ts i j).map (fun q => jGet q k) := by
  by_cases hij : i = ml.template_index ∧ j = ml.param_index
  · obtain ⟨rfl, rfl⟩ := hij
    cases hts : tParts ts ml.template_index ml.param_index with
    | none => rw [applyOneLabel_of_none hts]
    | some x =>
      obtain ⟨tf, ps, q⟩ := x
      rw [paramAt_applyOneLabel_self hts]
      unfold paramAt
      rw [hts]
      simp only [Option.map_some']
      rw [jGet_dset_ne _ _ (Ne.symm hk)]
  · rw [paramAt_applyOneLabel_ne hij]

theorem jGet_applyManualLabels_other {mls : List ManualLabel} {k : String}
    (hk : k ≠ "type") :
    ∀ (ts : List Json) (i j : Nat),
      (paramAt (applyManualLabels ts mls) i j).map (fun q => jGet q k) =
        (paramAt ts i j).map (fun q => jGet q k) := by
  induction mls with
  | nil =>
    intro ts i j
    rfl
  | cons ml rest ih =>
    intro ts i j
    rw [applyManualLabels_cons, ih, jGet_applyOneLabel_other hk]

theorem paramAt_applyManualLabels_ne {mls : List ManualLabel} {i j : Nat} :
    ∀ {ts : List Json},
      (∀ m ∈ mls, ¬(i = m.template_index ∧ j = m.param_index)) →
      paramAt (applyManualLabels ts mls) i j = paramAt ts i j := by
  induction mls with
  | nil =>
    intro ts _
    rfl
  | cons ml rest ih =>
    intro ts h
    rw [applyManualLabels_cons]
    rw [ih (fun r hr => h r (List.mem_cons_of_mem _ hr))]
    exact paramAt_applyOneLabel_ne (h ml (List.mem_cons_self _ _))

theorem applyManualLabels_length (mls : List ManualLabel) :
    ∀ ts : List Json, (applyManualLabels ts mls).length = ts.length := by
  induction mls with
  | nil =>
    intro ts
    rfl
  | cons ml rest ih =>
    intro ts
    rw [applyManualLabels_cons, ih]
    exact updateParamAt_length ts _ _ _

/-! ## Concrete demonstration data used by the witnesses -/

/-- Fields of a parameter with a non-empty `options` list. -/
def demoParamFields : List (String × Json) :=
  [("name", .str "role"), ("original_value", .str "admin"),
   ("options", .arr [.str "admin", .str "user"]), ("required", .bool false)]

/-- Fields of a plain integer-looking parameter. -/
def demoParamFields2 : List (String × Json) :=
  [("name", .str "user_id"), ("original_value", .str "42"),
   ("options", .null), ("required", .bool false)]

/-- One normalized template with the two demonstration parameters. -/
def demoTemplates : List Json :=
  [.obj [("id", .str "http://x/a"), ("template", .str "http://x/a"),
    ("method", .str "GET"),
    ("params", .arr [.obj demoParamFields, .obj demoParamFields2])]]

/-- Two predictions at distinct positions. -/
def demoPreds : List PredRec :=
  [⟨0, 0, "enum", 1/2⟩, ⟨0, 1, "int", 9/10⟩]

/-- C9: merging a prediction set whose records address pairwise distinct
(template, parameter) positions — as every output of
`predict_params_for_templates` does — into the already-enriched template
collection reproduces exactly the enriched collection obtained by merging
once: `predicted_type`, `predicted_confidence` and `baseline_value` are
rewritten with identical values (the output `meta` timestamp is outside
this merge). -/
theorem C9_merge_idempotent (ts : List Json) (preds : List PredRec)
    (hd : preds.Pairwise (fun a b => a.pos ≠ b.pos)) :
    mergePredictions (mergePredictions ts preds) preds =
      mergePredictions ts preds := by
  apply mergePredictions_fix
  intro p hp
  have hE := paramAt_mergePredictions_of_mem hd hp ts
  cases hq : paramAt ts p.template_index p.param_index with
  | none =>
    rw [hq] at hE
    simp only [Option.map_none'] at hE
    exact mergeOne_of_none (tParts_eq_none_of_paramAt hE)
  | some q0 =>
    rw [hq] at hE
    simp only [Option.map_some'] at hE
    obtain ⟨tf, ps, htp⟩ := tParts_of_paramAt_some hE
    exact mergeOne_fix htp (enrichParam_idem q0 p)

/-- C9 witness: the idempotence theorem applied to the concrete
demonstration templates and predictions. -/
theorem C9_witness :
    mergePredictions (mergePredictions demoTemplates demoPreds) demoPreds =
      mergePredictions demoTemplates demoPreds :=
  C9_merge_idempotent demoTemplates demoPreds (by
    simp [demoPreds, List.pairwise_cons, PredRec.pos])

/-- C6: `retrain_with_manual_labels` works on a deep copy (this embedding
returns the copy; the caller's collection is a distinct value, unchanged by
construction), overwrites only the `type` field of each addressed
parameter, and silently skips any manual label whose template or parameter
index is out of range, without affecting the other labels: (1) a label at
an unaddressable position leaves the copy unchanged, (2) such a label can
be dropped from the list without changing the result, (3) the number of
templates is preserved, (4) parameters addressed by no label are untouched,
and (5) every field other than `type` of every parameter is untouched. -/
theorem C6_retrain_manual_labels (ts : List Json) (mls : List ManualLabel) :
    (∀ ml : ManualLabel,
      paramAt ts ml.template_index ml.param_index = none →
        applyOneLabel ts ml = ts) ∧
    (∀ (ml : ManualLabel) (rest : List ManualLabel),
      paramAt ts ml.template_index ml.param_index = none →
        applyManualLabels ts (ml :: rest) = applyManualLabels ts rest) ∧
    (applyManualLabels ts mls).length = ts.length ∧
    (∀ i j : Nat,
      (∀ m ∈ mls, ¬(i = m.template_index ∧ j = m.param_index)) →
        paramAt (applyManualLabels ts mls) i j = paramAt ts i j) ∧
    (∀ (i j : Nat) (k : String), k ≠ "type" →
      (paramAt (applyManualLabels ts mls) i j).map (fun q => jGet q k) =
        (paramAt ts i j).map (fun q => jGet q k)) := by
  refine ⟨?_, ?_, applyManualLabels_length mls ts, ?_, ?_⟩
  · intro ml h
    exact applyOneLabel_of_none (tParts_eq_none_of_paramAt h)
  · intro ml rest h
    rw [applyManualLabels_cons,
      applyOneLabel_of_none (tParts_eq_none_of_paramAt h)]
  · intro i j h
    exact paramAt_applyManualLabels_ne h
  · intro i j k hk
    exact jGet_applyManualLabels_other hk ts i j

/-- C6 witness: the frame theorem applied to the demonstration template
with one in-range and one out-of-range manual label. -/
theorem C6_witness :
    applyOneLabel demoTemplates ⟨3, 0, "int"⟩ = demoTemplates ∧
    paramAt (applyManualLabels demoTemplates
        [⟨0, 1, "bool"⟩, ⟨3, 0, "int"⟩]) 0 0 = paramAt demoTemplates 0 0 ∧
    (paramAt (applyManualLabels demoTemplates
        [⟨0, 1, "bool"⟩, ⟨3, 0, "int"⟩]) 0 1).map (fun q => jGet q "name") =
      (paramAt demoTemplates 0 1).map (fun q => jGet q "name") := by
  obtain ⟨h1, _, _, h4, h5⟩ :=
    C6_retrain_manual_labels demoTemplates [⟨0, 1, "bool"⟩, ⟨3, 0, "int"⟩]
  refine ⟨h1 ⟨3, 0, "int"⟩ rfl, h4 0 0 ?_, h5 0 1 "name" (by decide)⟩
  intro m hm
  simp only [List.mem_cons, List.not_mem_nil, or_false] at hm
  rcases hm with rfl | rfl <;> simp

/-- C1 counterexample: for the demonstration parameter whose `options` list
is non-empty, merging a prediction whose predicted label is `"int"` writes
`predicted_type = "int"`, not `"enum"` — the Merger copies the classifier's
label verbatim and never forces `enum`. -/
theorem C1_counterexample :
    jGet demoParamFields "options" =
      some (.arr [.str "admin", .str "user"]) ∧
    paramAt demoTemplates 0 0 = some demoParamFields ∧
    (paramAt (mergeOne demoTemplates ⟨0, 0, "int", 0⟩) 0 0).map
        (fun q => jGet q "predicted_type") = some (some (.str "int")) ∧
    "int" ≠ "enum" :=
  ⟨rfl, rfl, rfl, by decide⟩

/-- C1 (amended): for every parameter whose `options` field is a non-empty
list, the heuristic label is `enum` regardless of name and value; the
Merger, however, writes onto the addressed parameter exactly the label
carried by the prediction record, so the merged `predicted_type` is `enum`
only when the prediction itself says `enum`. -/
theorem C1_amended_options_enum (name : String) (value : Option String)
    (opts : List Json) (hne : opts ≠ []) (ts : List Json) (p : PredRec)
    {tf : List (String × Json)} {ps : List Json} {q : List (String × Json)}
    (h : tParts ts p.template_index p.param_index = some (tf, ps, q)) :
    heuristic_label name value (some opts) = "enum" ∧
    (paramAt (mergeOne ts p) p.template_index p.param_index).map
        (fun q0 => jGet q0 "predicted_type") = some (some (.str p.predicted)) := by
  constructor
  · cases opts with
    | nil => exact absurd rfl hne
    | cons a l => rfl
  · rw [paramAt_mergeOne_self h]
    simp only [Option.map_some']
    rw [jGet_enrichParam_predicted_type]

/-- C1 witness: the amended invariant at the concrete enum parameter and an
`enum`-labelled prediction. -/
theorem C1_witness :
    heuristic_label "role" (some "admin")
        (some [.str "admin", .str "user"]) = "enum" ∧
    (paramAt (mergeOne demoTemplates ⟨0, 0, "enum", 0⟩) 0 0).map
        (fun q0 => jGet q0 "predicted_type") =
      some (some (.str "enum")) :=
  C1_amended_options_enum "role" (some "admin") [.str "admin", .str "user"]
    (List.cons_ne_nil _ _) demoTemplates ⟨0, 0, "enum", 0⟩ rfl

/-! ## The spec's nine-rule decision order (section 4.1), for comparison
with `heuristic_label` -/

/-- The spec's rule-4 name pattern as written: prefix `is`, `has` or
`enable`, or suffix `_flag` (case-insensitively) — without the `flag`
prefix that the source regex also accepts. -/
def specFlagNamePattern (name : String) : Bool :=
  let n := strLower name
  strStarts n "is" || strStarts n "has" || strStarts n "enable" ||
    strEnds n "_flag"

/-- The spec's rule-6 decimal literal as written: `digits.digits`, with no
leading minus. -/
def specDecimalLiteral (s : String) : Bool := digitsDotDigits s.data

/-- The nine-rule first-match decision order exactly as the spec states it
(value stripped of surrounding whitespace as the source does; the name
pattern of rule 2 is the source's identifier/count/size/page/limit pattern
the spec refers to by name). -/
def heuristicLabelSpec (name : String) (value : Option String)
    (options : Option (List Json)) : String :=
  if (match options with | some l => !l.isEmpty | none => false) then "enum"
  else
    match value with
    | none => if !strEmpty name && nameIntHint name then "int" else "string"
    | some s =>
      let v := pyStrip s
      if strEmpty v then
        if !strEmpty name && nameIntHint name then "int" else "string"
      else if strLower v == "true" || strLower v == "false" then "bool"
      else if (v == "0" || v == "1") &&
          (!strEmpty name && specFlagNamePattern name) then "bool"
      else if isIntLit v then "int"
      else if specDecimalLiteral v then "float"
      else if isUuid v then "uuid"
      else if strHas v "@" && strHas v "." then "email"
      else "string"

/-- C3 counterexample: the source deviates from the spec's nine rules in
two places.  A name with the `flag` prefix (accepted by the source regex
`^(is|has|enable|flag)`) and value `1` is labelled `bool` by the source but
`int` by the spec's rules 4/5; and a negative decimal such as `-1.5`
(accepted by the source's `-?\d+\.\d+`) is labelled `float` by the source
but `string` by the spec's `digits.digits` rule 6. -/
theorem C3_counterexample :
    heuristic_label "flag_x" (some "1") none ≠
      heuristicLabelSpec "flag_x" (some "1") none ∧
    heuristic_label "qty" (some "-1.5") none ≠
      heuristicLabelSpec "qty" (some "-1.5") none := by
  constructor <;> decide

/-- The spec's rule-4 pattern amended to include the `flag` prefix, exactly
matching the source regex `^(is|has|enable|flag)|_flag$`. -/
def specFlagNamePatternAmended (name : String) : Bool :=
  let n := strLower name
  strStarts n "is" || strStarts n "has" || strStarts n "enable" ||
    strStarts n "flag" || strEnds n "_flag"

/-- The spec's rule-6 literal amended to allow an optional leading minus
(`-?digits.digits`), matching the source regex. -/
def specDecimalLiteralAmended (s : String) : Bool :=
  match s.data with
  | '-' :: rest => digitsDotDigits rest
  | l => digitsDotDigits l

/-- The nine-rule decision order with the two amendments. -/
def heuristicLabelSpecAmended (name : String) (value : Option String)
    (options : Option (List Json)) : String :=
  if (match options with | some l => !l.isEmpty | none => false) then "enum"
  else
    match value with
    | none => if !strEmpty name && nameIntHint name then "int" else "string"
    | some s =>
      let v := pyStrip s
      if strEmpty v then
        if !strEmpty name && nameIntHint name then "int" else "string"
      else if strLower v == "true" || strLower v == "false" then "bool"
      else if (v == "0" || v == "1") &&
          (!strEmpty name && specFlagNamePatternAmended name) then "bool"
      else if isIntLit v then "int"
      else if specDecimalLiteralAmended v then "float"
      else if isUuid v then "uuid"
      else if strHas v "@" && strHas v "." then "email"
      else "string"

theorem specFlagNamePatternAmended_eq (name : String) :
    specFlagNamePatternAmended name = flagNameHint name := rfl

theorem specDecimalLiteralAmended_eq (s : String) :
    specDecimalLiteralAmended s = isFloatLit s := rfl

/-- C3 (amended): `heuristic_label` implements the spec's nine-rule
first-match decision order once rule 4's name pattern also accepts the
`flag` prefix and rule 6's decimal literal allows an optional leading
minus. -/
theorem C3_amended_nine_rules (name : String) (value : Option String)
    (options : Option (List Json)) :
    heuristic_label name value options =
      heuristicLabelSpecAmended name value options := rfl

/-! ## Active learning (`run_active_learning`, lines 203-236).  The
operator's successive console entries are modelled as a list of response
strings, one consumed per presented item. -/

/-- The closed label set accepted by the prompt
(`("int", "float", "bool", "uuid", "email", "enum", "string")`). -/
def isAllowedLabel (user : String) : Bool :=
  user == "int" || user == "float" || user == "bool" || user == "uuid" ||
    user == "email" || user == "enum" || user == "string"

/-- Ordering of prediction records by confidence (the sort key
`lambda x: x["confidence"]`). -/
def confLE (a b : PredRec) : Prop := a.confidence ≤ b.confidence

instance : DecidableRel confLE :=
  fun a b => inferInstanceAs (Decidable (a.confidence ≤ b.confidence))

instance : IsTotal PredRec confLE :=
  ⟨fun a b => le_total a.confidence b.confidence⟩

instance : IsTrans PredRec confLE :=
  ⟨fun _ _ _ h1 h2 => le_trans h1 h2⟩

/-- `low`: predictions with confidence strictly below the threshold. -/
def lowConf (preds : List PredRec) (threshold : ℚ) : List PredRec :=
  preds.filter (fun p => p.confidence < threshold)

/-- `to_label`: the low-confidence predictions sorted ascending by
confidence (stable sort), capped at the batch size. -/
def presentedItems (preds : List PredRec) (threshold : ℚ) (batch : Nat) :
    List PredRec :=
  (List.insertionSort confLE (lowConf preds threshold)).take batch

/-- The prompt loop: strip the entry; empty entries and entries outside
the closed label set are skipped (the latter with a warning), accepted
entries are recorded in presentation order. -/
def collectLabels : List PredRec → List String → List ManualLabel
  | [], _ => []
  | _ :: _, [] => []
  | it :: rest, resp :: rrest =>
    let user := pyStrip resp
    if strEmpty user then collectLabels rest rrest
    else if isAllowedLabel user then
      ⟨it.template_index, it.param_index, user⟩ :: collectLabels rest rrest
    else collectLabels rest rrest

/-- `run_active_learning` as a function of the predictions (produced
upstream by `predict_params_for_templates`) and the operator's responses. -/
def run_active_learning (preds : List PredRec) (threshold : ℚ) (batch : Nat)
    (responses : List String) : List ManualLabel :=
  collectLabels (presentedItems preds threshold batch) responses

theorem isAllowedLabel_empty {s : String} (h : strEmpty s = true) :
    isAllowedLabel s = false := by
  obtain ⟨l⟩ := s
  simp only [strEmpty, List.isEmpty_iff_eq_nil] at h
  subst h
  decide

theorem collectLabels_cons (it : PredRec) (rest : List PredRec)
    (resp : String) (rrest : List String) :
    collectLabels (it :: rest) (resp :: rrest) =
      if strEmpty (pyStrip resp) then collectLabels rest rrest
      else if isAllowedLabel (pyStrip resp) then
        ⟨it.template_index, it.param_index, pyStrip resp⟩ ::
          collectLabels rest rrest
      else collectLabels rest rrest := rfl

theorem collectLabels_eq (items : List PredRec) (responses : List String) :
    collectLabels items responses =
      ((items.zip responses).filter
        (fun pr => isAllowedLabel (pyStrip pr.2))).map
        (fun pr => ⟨pr.1.template_index, pr.1.param_index, pyStrip pr.2⟩) := by
  induction items generalizing responses with
  | nil => cases responses <;> rfl
  | cons it rest ih =>
    cases responses with
    | nil => rfl
    | cons resp rrest =>
      rw [collectLabels_cons, ih, List.zip_cons_cons, List.filter_cons]
      by_cases hemp : strEmpty (pyStrip resp) = true
      · rw [if_pos hemp, if_neg (by rw [isAllowedLabel_empty hemp]; simp)]
      · rw [if_neg hemp]
        by_cases hall : isAllowedLabel (pyStrip resp) = true
        · rw [if_pos hall, if_pos (by simpa using hall)]
          rfl
        · rw [if_neg hall, if_neg (by simpa using hall)]

/-- C4: the Active-Learning Coordinator considers exactly the predictions
with confidence strictly below the threshold, sorted in ascending order of
confidence; it presents at most `batch` of them, namely globally
lowest-confidence ones; it records a manual label only when the operator's
stripped entry is one of the seven closed labels (any other entry,
including an empty one, is a skip); and it returns the accepted labels in
presentation order. -/
theorem C4_active_learning (preds : List PredRec) (threshold : ℚ)
    (batch : Nat) (responses : List String) :
    (∀ x ∈ presentedItems preds threshold batch,
      x ∈ preds ∧ x.confidence < threshold) ∧
    (presentedItems preds threshold batch).length ≤ batch ∧
    List.Sorted confLE (presentedItems preds threshold batch) ∧
    (∀ x ∈ presentedItems preds threshold batch, ∀ y ∈ preds,
      y.confidence < threshold →
        y ∉ presentedItems preds threshold batch →
          x.confidence ≤ y.confidence) ∧
    run_active_learning preds threshold batch responses =
      (((presentedItems preds threshold batch).zip responses).filter
        (fun pr => isAllowedLabel (pyStrip pr.2))).map
        (fun pr => ⟨pr.1.template_index, pr.1.param_index, pyStrip pr.2⟩) ∧
    (∀ ml ∈ run_active_learning preds threshold batch responses,
      isAllowedLabel ml.label = true) := by
  have hsorted : List.Sorted confLE
      (List.insertionSort confLE (lowConf preds threshold)) :=
    List.sorted_insertionSort confLE (lowConf preds threshold)
  have hperm : List.Perm (List.insertionSort confLE (lowConf preds threshold))
      (lowConf preds threshold) :=
    List.perm_insertionSort confLE (lowConf preds threshold)
  have hmemlow : ∀ x, x ∈ lowConf preds threshold ↔
      x ∈ preds ∧ x.confidence < threshold := by
    intro x
    unfold lowConf
    rw [List.mem_filter]
    simp
  refine ⟨?_, ?_, ?_, ?_, ?_, ?_⟩
  · intro x hx
    have hx1 : x ∈ List.insertionSort confLE (lowConf preds threshold) :=
      List.take_subset _ _ hx
    exact (hmemlow x).mp (hperm.mem_iff.mp hx1)
  · unfold presentedItems
    rw [List.length_take]
    exact min_le_left _ _
  · exact hsorted.sublist (List.take_sublist _ _)
  · intro x hx y hy hconf hyn
    have hylow : y ∈ List.insertionSort confLE (lowConf preds threshold) :=
      hperm.mem_iff.mpr ((hmemlow y).mpr ⟨hy, hconf⟩)
    have hsplit := List.take_append_drop batch
      (List.insertionSort confLE (lowConf preds threshold))
    have : y ∈ (List.insertionSort confLE (lowConf preds threshold)).take batch ∨
        y ∈ (List.insertionSort confLE (lowConf preds threshold)).drop batch := by
      rw [← List.mem_append, hsplit]
      exact hylow
    rcases this with h | h
    · exact absurd h hyn
    · exact hsorted.rel_of_mem_take_of_mem_drop hx h
  · exact collectLabels_eq _ _
  · intro ml hml
    rw [run_active_learning, collectLabels_eq] at hml
    obtain ⟨pr, hpr, hml2⟩ := List.mem_map.mp hml
    have := (List.mem_filter.mp hpr).2
    rw [← hml2]
    simpa using this

/-- Demonstration predictions for the active-learning witness. -/
def demoALPreds : List PredRec :=
  [⟨0, 0, "string", 11/20⟩, ⟨0, 1, "int", 19/20⟩,
   ⟨1, 0, "uuid", 3/10⟩, ⟨1, 1, "email", 1/5⟩]

/-- C4 witness: the coordinator's output at a concrete prediction list and
response sequence equals the filter/map characterisation given by the
theorem. -/
theorem C4_witness :
    run_active_learning demoALPreds (7/10) 2 ["x", "uuid"] =
      (((presentedItems demoALPreds (7/10) 2).zip ["x", "uuid"]).filter
        (fun pr => isAllowedLabel (pyStrip pr.2))).map
        (fun pr => ⟨pr.1.template_index, pr.1.param_index, pyStrip pr.2⟩) :=
  (C4_active_learning demoALPreds (7/10) 2 ["x", "uuid"]).2.2.2.2.1

/-! ## Predictor confidence (`predict_params_for_templates`, lines
168-199).  The fitted classifier is modelled abstractly through its
outputs on one feature row: `classes` (`clf.classes_`), `probs` (the row
of `clf.predict_proba`) and `pred` (`clf.predict`); sklearn guarantees
the row is a probability distribution over the distinct classes and that
the prediction is one of the classes — those guarantees appear as
hypotheses. -/

/-- A full prediction record (lines 190-198). -/
structure FullPred where
  template_index : Nat
  param_index : Nat
  predicted : String
  confidence : ℚ
  probabilities : List (String × ℚ)

/-- Lookup in the `prob_arr` dictionary. -/
def probLookup : List (String × ℚ) → String → Option ℚ
  | [], _ => none
  | (k, v) :: rest, key => if k = key then some v else probLookup rest key

/-- Lines 186-198: `prob_arr = {cls: float(probs[i, j]) ...}` and
`confidence = float(prob_arr.get(pred, 0.0))`. -/
def mkPredictionRecord (tIdx pIdx : Nat) (classes : List String)
    (probs : List ℚ) (pred : String) : FullPred :=
  { template_index := tIdx, param_index := pIdx, predicted := pred,
    confidence := (probLookup (classes.zip probs) pred).getD 0,
    probabilities := classes.zip probs }

theorem map_snd_zip_eq {α β : Type} : ∀ (l1 : List α) (l2 : List β),
    l2.length ≤ l1.length → (l1.zip l2).map Prod.snd = l2
  | _, [], _ => by simp
  | [], b :: bs, h => by simp at h
  | a :: as, b :: bs, h => by
    simp only [List.zip_cons_cons, List.map_cons]
    rw [map_snd_zip_eq as bs (by simpa using h)]

theorem probLookup_zip {classes : List String} {probs : List ℚ}
    {pred : String} (hlen : probs.length = classes.length)
    (hpred : pred ∈ classes) :
    ∃ q ∈ probs, probLookup (classes.zip probs) pred = some q := by
  induction classes generalizing probs with
  | nil => cases hpred
  | cons c cs ih =>
    cases probs with
    | nil => simp at hlen
    | cons p ps =>
      by_cases hc : c = pred
      · refine ⟨p, List.mem_cons_self _ _, ?_⟩
        rw [List.zip_cons_cons]
        unfold probLookup
        rw [if_pos hc]
      · rcases List.mem_cons.mp hpred with rfl | hmem
        · exact absurd rfl hc
        · obtain ⟨q, hq, hl⟩ := ih (by simpa using hlen) hmem
          refine ⟨q, List.mem_cons_of_mem _ hq, ?_⟩
          rw [List.zip_cons_cons]
          unfold probLookup
          rw [if_neg hc]
          exact hl

/-- C7: for a classifier output forming a probability distribution over
its distinct classes with the predicted class among them, the produced
record's confidence is exactly the probability mass the record's own
distribution assigns to the predicted label, it lies in [0, 1], and the
distribution sums to 1. -/
theorem C7_predictor_confidence (tIdx pIdx : Nat) (classes : List String)
    (probs : List ℚ) (pred : String)
    (hlen : probs.length = classes.length)
    (hnn : ∀ q ∈ probs, 0 ≤ q)
    (hsum : probs.sum = 1)
    (hpred : pred ∈ classes) :
    probLookup (mkPredictionRecord tIdx pIdx classes probs pred).probabilities
        (mkPredictionRecord tIdx pIdx classes probs pred).predicted =
      some (mkPredictionRecord tIdx pIdx classes probs pred).confidence ∧
    0 ≤ (mkPredictionRecord tIdx pIdx classes probs pred).confidence ∧
    (mkPredictionRecord tIdx pIdx classes probs pred).confidence ≤ 1 ∧
    ((mkPredictionRecord tIdx pIdx classes probs pred).probabilities.map
        Prod.snd).sum = 1 := by
  obtain ⟨q, hqmem, hlook⟩ := probLookup_zip hlen hpred
  have hconf : (mkPredictionRecord tIdx pIdx classes probs pred).confidence = q := by
    unfold mkPredictionRecord
    rw [hlook]
    rfl
  refine ⟨?_, ?_, ?_, ?_⟩
  · show probLookup (classes.zip probs) pred = _
    rw [hlook, hconf]
  · rw [hconf]
    exact hnn q hqmem
  · rw [hconf]
    calc q ≤ probs.sum := List.single_le_sum hnn q hqmem
    _ = 1 := hsum
  · show ((classes.zip probs).map Prod.snd).sum = 1
    rw [map_snd_zip_eq classes probs (le_of_eq hlen), hsum]

theorem C7_witness_nonneg : ∀ q ∈ ([3/10, 7/10] : List ℚ), 0 ≤ q := by
  intro q hq
  simp only [List.mem_cons, List.not_mem_nil, or_false] at hq
  rcases hq with rfl | rfl <;> norm_num

/-- C7 witness: a concrete two-class distribution. -/
theorem C7_witness :
    0 ≤ (mkPredictionRecord 0 0 ["int", "string"] [3/10, 7/10] "string").confidence ∧
    (mkPredictionRecord 0 0 ["int", "string"] [3/10, 7/10] "string").confidence ≤ 1 :=
  ⟨(C7_predictor_confidence 0 0 ["int", "string"] [3/10, 7/10] "string"
      (by decide) C7_witness_nonneg (by norm_num [List.sum_cons, List.sum_nil]) (by decide)).2.1,
   (C7_predictor_confidence 0 0 ["int", "string"] [3/10, 7/10] "string"
      (by decide) C7_witness_nonneg (by norm_num [List.sum_cons, List.sum_nil]) (by decide)).2.2.1⟩

/-! ## Trainer precondition (`train_model_from_df`, lines 144-159).
`train_test_split(..., test_size=0.2, stratify=y)` delegates to sklearn's
StratifiedShuffleSplit.  Modelled from that library's documented
behaviour: it raises a ValueError exactly when there are no samples, when
the least populated class has fewer than 2 members, or when the test or
train partition (n_test = ceil(0.2 n), here in exact arithmetic;
n_train = n - n_test) is smaller than the number of classes.
`joblib.dump` runs only after the split and fit succeed, so a raised
split error terminates the run with no artifact written and any previous
artifact untouched. -/

/-- `ceil(0.2 * n)` in exact arithmetic. -/
def nTestOf (n : Nat) : Nat := (n + 4) / 5

/-- `n - n_test`, i.e. `floor(0.8 * n)`. -/
def nTrainOf (n : Nat) : Nat := n - nTestOf n

/-- The stratified-split precondition on the label column. -/
def stratifiedSplitOk (labels : List String) : Bool :=
  decide (0 < labels.length) &&
    labels.dedup.all (fun c => decide (2 ≤ labels.count c)) &&
    decide (labels.dedup.length ≤ nTrainOf labels.length) &&
    decide (labels.dedup.length ≤ nTestOf labels.length)

/-- Outcome of `train_model_from_df` as a function of the label column:
`ok` when the stratified split succeeds (the model is fitted and the
artifact dumped), `error` when `train_test_split` raises (no artifact
written). -/
def train_model_from_df (labels : List String) : Except String Unit :=
  if stratifiedSplitOk labels then .ok () else .error "ValueError"

theorem dedup_replicate_pos {α : Type} [DecidableEq α] (a : α) :
    ∀ n : Nat, 1 ≤ n → (List.replicate n a).dedup = [a]
  | 1, _ => by simp
  | n + 2, _ => by
    rw [List.replicate_succ, List.dedup_cons_of_mem
      (List.mem_replicate.mpr ⟨by omega, rfl⟩)]
    exact dedup_replicate_pos a (n + 1) (by omega)

/-- C2 counterexample: a single-class label column with five rows has
fewer than two distinct labels, yet training succeeds and the artifact is
written. -/
theorem C2_counterexample :
    (List.replicate 5 "string").dedup.length = 1 ∧
    train_model_from_df (List.replicate 5 "string") = .ok () := by
  constructor
  · rfl
  · rfl

/-- C2 (amended): training fails fatally (no artifact written) exactly on
the stratified-split precondition, which is weaker than the spec's
two-distinct-labels requirement: a single-class table with at least two
rows trains successfully and overwrites the artifact, while any table
containing a class with exactly one sample raises and writes nothing. -/
theorem C2_amended_training_precondition (n : Nat) (hn : 2 ≤ n)
    (labels : List String) (c : String) (hc : c ∈ labels)
    (h1 : labels.count c = 1) :
    train_model_from_df (List.replicate n "string") = .ok () ∧
    train_model_from_df labels = .error "ValueError" := by
  constructor
  · have hok : stratifiedSplitOk (List.replicate n "string") = true := by
      unfold stratifiedSplitOk nTrainOf nTestOf
      rw [dedup_replicate_pos "string" n (by omega)]
      simp only [List.length_replicate, List.all_cons, List.all_nil,
        List.count_replicate_self, List.length_cons, List.length_nil,
        Bool.and_eq_true, Bool.and_true, decide_eq_true_eq]
      omega
    unfold train_model_from_df
    rw [if_pos hok]
  · unfold train_model_from_df
    rw [if_neg]
    intro hok
    unfold stratifiedSplitOk at hok
    simp only [Bool.and_eq_true, decide_eq_true_eq, List.all_eq_true] at hok
    have h2 := hok.1.1.2 c (List.mem_dedup.mpr hc)
    omega

/-- C2 witness: the amended precondition at a five-row single-class table
and a table whose class `"string"` has exactly one sample. -/
theorem C2_witness :
    train_model_from_df (List.replicate 5 "string") = .ok () ∧
    train_model_from_df ["string", "int", "int"] = .error "ValueError" :=
  C2_amended_training_precondition 5 (by decide) ["string", "int", "int"]
    "string" (by decide) (by decide)

/-! ## Output metadata (`write_output_templates` lines 419-426 and `main`
lines 433-501).  `datetime.utcnow().isoformat()` is modelled as an opaque
timestamp string parameter.  `main` computes an input-format hint from the
raw input JSON and always passes a non-empty hint;
`write_output_templates` stamps the constant `DEFAULT_MODEL_PATH` into the
meta — the model path in use (`args.model`) is never passed to it. -/

/-- `DEFAULT_MODEL_PATH` (line 38). -/
def DEFAULT_MODEL_PATH : String := "param_type_model.joblib"

/-- The `meta` object of the enriched output file. -/
structure OutMeta where
  generated_at : String
  model : String
  input_format : Option String

/-- Lines 419-425: build the `meta` object from the timestamp and the
optional hint (added only when truthy). -/
def writeMeta (now : String) (hint : Option String) : OutMeta :=
  { generated_at := now ++ "Z",
    model := DEFAULT_MODEL_PATH,
    input_format :=
      match hint with
      | some h => if strEmpty h then none else some h
      | none => none }

/-- Lines 460-474 of `main`: the input-format hint derived from the raw
input JSON (initialised to "list" and left there when the re-read fails or
the top level is not an object). -/
def computeHint (raw : Json) : String :=
  match raw with
  | .obj f =>
    if (jGet f "forms").isSome || (jGet f "endpoints").isSome then
      "forms/endpoints"
    else if (jGet f "templates").isSome then "templates-wrapper"
    else "object"
  | _ => "list"

/-- The meta written by a predicting run of `main`: `modelPath` is the
`--model` argument actually used for loading/predicting; it never reaches
`write_output_templates`, which stamps `DEFAULT_MODEL_PATH`. -/
def mainOutputMeta (modelPath : String) (raw : Json) (now : String) :
    OutMeta :=
  writeMeta now (some (computeHint raw))

theorem computeHint_cases (raw : Json) :
    computeHint raw = "list" ∨ computeHint raw = "forms/endpoints" ∨
      computeHint raw = "templates-wrapper" ∨ computeHint raw = "object" := by
  cases raw with
  | obj f =>
    simp only [computeHint]
    by_cases h1 : ((jGet f "forms").isSome || (jGet f "endpoints").isSome) = true
    · rw [if_pos h1]
      right
      left
      rfl
    · rw [if_neg h1]
      by_cases h2 : (jGet f "templates").isSome = true
      · rw [if_pos h2]
        right
        right
        left
        rfl
      · rw [if_neg h2]
        right
        right
        right
        rfl
  | null => left; rfl
  | bool b => left; rfl
  | num q => left; rfl
  | str s => left; rfl
  | arr l => left; rfl

theorem computeHint_not_empty (raw : Json) :
    strEmpty (computeHint raw) = false := by
  rcases computeHint_cases raw with h | h | h | h <;> rw [h] <;> rfl

/-- C5 counterexample: a run that uses the model path "custom_model.joblib"
still writes `meta.model = "param_type_model.joblib"` — the meta does not
record the model artifact path actually used. -/
theorem C5_counterexample :
    (mainOutputMeta "custom_model.joblib" (.arr []) "2024-01-01T00:00:00").model =
      "param_type_model.joblib" ∧
    "param_type_model.joblib" ≠ "custom_model.joblib" := by
  constructor
  · rfl
  · decide

/-- C5 (amended): the written meta always records the constant
`DEFAULT_MODEL_PATH` as `model`, whatever model path the run used; it
carries the run's timestamp with a "Z" suffix as `generated_at`; and its
`input_format` is always present and equal to the computed hint, which is
one of "list", "forms/endpoints", "templates-wrapper" and "object". -/
theorem C5_amended_output_meta (modelPath : String) (raw : Json)
    (now : String) :
    (mainOutputMeta modelPath raw now).model = DEFAULT_MODEL_PATH ∧
    (mainOutputMeta modelPath raw now).generated_at = now ++ "Z" ∧
    (mainOutputMeta modelPath raw now).input_format =
      some (computeHint raw) ∧
    (computeHint raw = "list" ∨ computeHint raw = "forms/endpoints" ∨
      computeHint raw = "templates-wrapper" ∨ computeHint raw = "object") := by
  refine ⟨rfl, rfl, ?_, computeHint_cases raw⟩
  show (if strEmpty (computeHint raw) then none else some (computeHint raw)) =
    some (computeHint raw)
  rw [computeHint_not_empty]
  rfl

/-! ## Template normalization (`_normalize_param` lines 279-309 and
`load_templates` lines 312-397).  File I/O is outside the model: the
function receives the parsed JSON value.  A Python exception raised while
normalizing (AttributeError/TypeError/ValueError) is an `Except.error`. -/

/-- Truthiness of `d.get(k)` (missing key and `null` are falsy). -/
def pyGetTruthy (f : List (String × Json)) (k : String) : Bool :=
  match pyGet f k with
  | some v => jTruthy v
  | none => false

/-- `.upper()` on a value used as a method string; a non-string raises. -/
def pyUpper (v : Json) : Except String String :=
  match v with
  | .str s => .ok ⟨s.data.map Char.toUpper⟩
  | _ => .error "AttributeError"

/-- `(item.get("method") or "").upper() if item.get("method") else
(item.get("verb") or "").upper()` (line 360). -/
def methodOf (f : List (String × Json)) : Except String String :=
  if pyGetTruthy f "method" then
    pyUpper (pyOrD [pyGet f "method"] (.str ""))
  else
    pyUpper (pyOrD [pyGet f "verb"] (.str ""))

/-- The params source must be a JSON array to be iterated and normalized;
any truthy non-array raises while iterating/normalizing. -/
def paramsList (v : Json) : Except String (List Json) :=
  match v with
  | .arr l => .ok l
  | _ => .error "TypeError"

/-- `_normalize_param` (lines 279-309): canonical
`name`/`original_value`/`options`/`required` (plus `type` when truthy)
from the alias keys. -/
def _normalize_param (p : Json) : Except String Json :=
  match p with
  | .null =>
    .ok (.obj [("name", .str ""), ("original_value", .str ""),
      ("options", .null), ("required", .bool false)])
  | .obj f =>
    let name := pyOrD [pyGet f "name", pyGet f "key", pyGet f "param"]
      (.str "")
    let orig : Json :=
      match pyGet f "original_value" with
      | some v => v
      | none =>
        match pyGet f "value" with
        | some v => v
        | none =>
          match pyGet f "default" with
          | some v => v
          | none => pyOrD [pyGet f "example"] (.str "")
    let options : Json :=
      pyOrD [pyGet f "options", pyGet f "opts", pyGet f "choices"] .null
    let base : List (String × Json) :=
      [("name", name), ("original_value", orig), ("options", options),
       ("required", .bool (pyGetTruthy f "required"))]
    match pyGet f "type" with
    | some t =>
      if jTruthy t then .ok (.obj (base ++ [("type", t)]))
      else .ok (.obj base)
    | none => .ok (.obj base)
  | _ => .error "AttributeError"

/-- One item of a detected `forms`/`endpoints` sequence (lines 357-372). -/
def normItem (seqName : String) (idx : Nat) (item : Json) :
    Except String Json :=
  match item with
  | .obj f => do
    let url := pyOrD [pyGet f "action", pyGet f "url", pyGet f "template"]
      (.str "")
    let method ← methodOf f
    let ps ← paramsList
      (pyOrD [pyGet f "params", pyGet f "parameters"] (.arr []))
    let params ← ps.mapM _normalize_param
    let idv := if jTruthy url then url
      else .str (seqName ++ "_" ++ toString idx)
    .ok (.obj [("id", idv), ("template", url), ("method", .str method),
      ("params", .arr params)])
  | _ => .error "AttributeError"

/-- Loop over one sequence, threading the running index. -/
def buildItems (seqName : String) :
    Nat → List Json → Except String (List Json × Nat)
  | idx, [] => .ok ([], idx)
  | idx, it :: rest => do
    let t ← normItem seqName idx it
    let p ← buildItems seqName (idx + 1) rest
    .ok (t :: p.1, p.2)

/-- Loop over all detected sequences (lines 355-372). -/
def buildFromSeqs : Nat → List (String × List Json) → Except String (List Json)
  | _, [] => .ok []
  | idx, (sn, items) :: rest => do
    let p ← buildItems sn idx items
    let ts2 ← buildFromSeqs p.2 rest
    .ok (p.1 ++ ts2)

/-- Lines 349-352: a top-level list of objects whose first element carries
a string under `url`, `action` or `method`. -/
def looksEndpointish (first : Json) : Bool :=
  match first with
  | .obj g =>
    (match jGet g "url" with | some (.str _) => true | _ => false) ||
      (match jGet g "action" with | some (.str _) => true | _ => false) ||
      (match jGet g "method" with | some (.str _) => true | _ => false)
  | _ => false

/-- Lines 346-352: generic fallback detection of endpoint-like sequences
among the top-level keys, in insertion order. -/
def genericDetect (f : List (String × Json)) : List (String × List Json) :=
  f.filterMap (fun kv =>
    match kv.2 with
    | .arr (x :: xs) =>
      if looksEndpointish x then some (kv.1, x :: xs) else none
    | _ => none)

/-- Lines 383-387: per-form normalization of the last-resort `forms`
fallback (`template_url or f"form_{idx}"`; no `verb` alias here). -/
def formFallback (idx : Nat) (form : Json) : Except String Json :=
  match form with
  | .obj f => do
    let url := pyOrD [pyGet f "action", pyGet f "url", pyGet f "template"]
      (.str ("form_" ++ toString idx))
    let method ← pyUpper (pyOrD [pyGet f "method"] (.str ""))
    let ps ← paramsList (pyOrD [pyGet f "params"] (.arr []))
    let params ← ps.mapM _normalize_param
    .ok (.obj [("id", url), ("template", url), ("method", .str method),
      ("params", .arr params)])
  | _ => .error "AttributeError"

/-- Lines 390-394: the single-template fallback for an object carrying
`params` directly. -/
def singleTemplate (f : List (String × Json)) (ps : List Json) :
    Except String Json := do
  let url := pyOrD [pyGet f "url", pyGet f "action", pyGet f "template"]
    (.str "template_0")
  let method ← pyUpper (pyOrD [pyGet f "method"] (.str ""))
  let params ← ps.mapM _normalize_param
  .ok (.obj [("id", url), ("template", url), ("method", .str method),
    ("params", .arr params)])

/-- `load_templates` (lines 312-397) on the parsed JSON value, in the
source's priority order: bare list as-is; `templates` wrapper as-is;
detected `forms`/`endpoints` (or endpoint-looking) sequences normalized;
last-resort single-object fallbacks; otherwise the format error. -/
def load_templates (raw : Json) : Except String (List Json) :=
  match raw with
  | .arr l => .ok l
  | .obj f =>
    match jGet f "templates" with
    | some (.arr l) => .ok l
    | _ =>
      let seqs : List (String × List Json) :=
        (match jGet f "forms" with
         | some (.arr l) => [("forms", l)]
         | _ => []) ++
        (match jGet f "endpoints" with
         | some (.arr l) => [("endpoints", l)]
         | _ => [])
      let seqs := if seqs.isEmpty then genericDetect f else seqs
      match buildFromSeqs 0 seqs with
      | .error e => .error e
      | .ok normalized =>
        if !normalized.isEmpty then .ok normalized
        else
          if (jGet f "params").isSome || (jGet f "forms").isSome ||
              (jGet f "endpoints").isSome then
            match jGet f "forms" with
            | some (.arr forms) =>
              forms.enum.mapM (fun pr => formFallback pr.1 pr.2)
            | _ =>
              match jGet f "params" with
              | some (.arr ps) => do
                let t ← singleTemplate f ps
                .ok [t]
              | _ => .error "Unrecognized input JSON format."
          else .error "Unrecognized input JSON format."
  | _ => .error "Unrecognized input JSON format."

/-- C8: normalizing an input whose top level is the wrapper object
`{"templates": T}` yields exactly the same canonical template collection
as normalizing an input whose top level is the bare array `T`. -/
theorem C8_wrapper_roundtrip (T : List Json) :
    load_templates (.obj [("templates", .arr T)]) = load_templates (.arr T) ∧
    load_templates (.arr T) = .ok T := by
  constructor
  · rfl
  · rfl

/-- C10: the bare-array and templates-wrapper paths return the contained
objects as-is — no per-parameter normalization, alias keys survive — while
the forms/endpoints path and the single-object fallback rewrite `key` /
`param` to `name`, `value` / `default` to `original_value` and `choices`
to `options` (two concrete runs shown). -/
theorem C10_normalization_paths (T : List Json) :
    load_templates (.arr T) = .ok T ∧
    load_templates (.obj [("templates", .arr T)]) = .ok T ∧
    load_templates (.obj [("forms", .arr [.obj [("action", .str "http://x/f"),
        ("method", .str "post"),
        ("params", .arr [.obj [("key", .str "q"), ("value", .str "v"),
          ("choices", .arr [.str "a"])]])]])]) =
      .ok [.obj [("id", .str "http://x/f"), ("template", .str "http://x/f"),
        ("method", .str "POST"),
        ("params", .arr [.obj [("name", .str "q"),
          ("original_value", .str "v"), ("options", .arr [.str "a"]),
          ("required", .bool false)]])]] ∧
    load_templates (.obj [("url", .str "http://x/s"),
        ("params", .arr [.obj [("param", .str "p"),
          ("default", .str "d")]])]) =
      .ok [.obj [("id", .str "http://x/s"), ("template", .str "http://x/s"),
        ("method", .str ""),
        ("params", .arr [.obj [("name", .str "p"),
          ("original_value", .str "d"), ("options", .null),
          ("required", .bool false)]])]] := by
  refine ⟨rfl, rfl, rfl, rfl⟩
